import Mathlib

/-!
Verification of the `application/v1alpha1` App CRD package
(`app_types.go` of github.com/giantswarm/apiextensions, vendored in
mdheller/bridge-operator).

The development embeds:
* the JSON/YAML value model and the OpenAPI v3 schema subset used by the
  embedded CRD (`type`, `properties`, `required`) together with structural
  validation as the Kubernetes apiextensions validator applies it;
* the embedded CRD YAML constant `appCRDYAML` and a parser for the YAML
  subset it uses, modelling the package `init` that unmarshals it;
* the Go structs `AppSpec`, `AppStatus`, … with their JSON struct tags
  (marshalling and unmarshalling);
* the constructors `NewAppCRD` (deep copy of the parsed template, modelled
  against an explicit heap of allocated copies) and `NewAppTypeMeta`.
-/

/-- JSON values (the image of YAML documents under ghodss/yaml, which
converts YAML to JSON before unmarshalling). Objects are association
lists in emission order. -/
inductive JVal where
  | null : JVal
  | bool : Bool → JVal
  | str : String → JVal
  | num : Int → JVal
  | arr : List JVal → JVal
  | obj : List (String × JVal) → JVal
  deriving Repr

namespace JVal

/-- Keys of a JSON object value (empty for non-objects). -/
def keys : JVal → List String
  | .obj kvs => kvs.map Prod.fst
  | _ => []

/-- First binding of a key in an object value, as the Go decoder sees it. -/
def lookup (k : String) : JVal → Option JVal
  | .obj kvs => kvs.lookup k
  | _ => none

end JVal

/-- The OpenAPI v3 schema subset appearing in `appCRDYAML`: an optional
`type` (`object` / `string` / `boolean`), a `properties` map and a
`required` list. -/
inductive Sch where
  | mk (ty : Option String) (props : List (String × Sch)) (req : List String)
  deriving Repr

namespace Sch

def ty : Sch → Option String
  | .mk t _ _ => t

def props : Sch → List (String × Sch)
  | .mk _ p _ => p

def req : Sch → List String
  | .mk _ _ r => r

end Sch

/-- Type assertion of OpenAPI validation: `type: object` demands a JSON
object, `string` a string, `boolean` a boolean; no declared type accepts
anything. -/
def typeOk : Option String → JVal → Bool
  | none, _ => true
  | some "object", .obj _ => true
  | some "object", _ => false
  | some "string", .str _ => true
  | some "string", _ => false
  | some "boolean", .bool _ => true
  | some "boolean", _ => false
  | some _, _ => false

/-- Structural validation of a JSON value against a schema, as the
apiextensions validator applies `type`, `properties` and `required`:
the declared type must match; on objects every `required` key must be
present and every present key that has a schema in `properties` must
validate recursively (keys without a schema are unconstrained, since the
embedded schema never sets `additionalProperties`). -/
def validate (fuel : Nat) (s : Sch) (v : JVal) : Bool :=
  match fuel with
  | 0 => false
  | fuel + 1 =>
    typeOk s.ty v &&
    (match v with
     | .obj kvs =>
       s.req.all (fun k => (kvs.map Prod.fst).contains k) &&
       kvs.all (fun kv =>
         match (s.props.lookup kv.1) with
         | some sub => validate fuel sub kv.2
         | none => true)
     | _ => true)

/-- The sub-object schema `{name: string, namespace: string}` with both
required, repeated at every `configMap`/`secret` position of the CRD. -/
def nameNamespaceSch : Sch :=
  .mk (some "object")
    [("name", .mk (some "string") [] []), ("namespace", .mk (some "string") [] [])]
    ["name", "namespace"]

/-- Schema of `spec.config` and `spec.userConfig` in `appCRDYAML`. -/
def configSch : Sch :=
  .mk (some "object")
    [("configMap", nameNamespaceSch), ("secret", nameNamespaceSch)] []

/-- Schema of `spec.kubeConfig` in `appCRDYAML`. -/
def kubeConfigSch : Sch :=
  .mk (some "object")
    [("inCluster", .mk (some "boolean") [] []),
     ("context", .mk (some "object") [("name", .mk (some "string") [] [])] []),
     ("secret", nameNamespaceSch)] []

/-- Schema of `spec` in `appCRDYAML` (lines 31–98 of app_types.go). -/
def specSch : Sch :=
  .mk (some "object")
    [("catalog", .mk (some "string") [] []),
     ("name", .mk (some "string") [] []),
     ("namespace", .mk (some "string") [] []),
     ("version", .mk (some "string") [] []),
     ("config", configSch),
     ("kubeConfig", kubeConfigSch),
     ("userConfig", configSch)]
    ["catalog", "name", "namespace", "version"]

/-- The `openAPIV3Schema` of `appCRDYAML`: only a `properties` map with
the single key `spec`; no top-level `type` and no top-level `required`. -/
def openAPIV3Schema : Sch := .mk none [("spec", specSch)] []

/-- Validation of a custom resource against the embedded App CRD schema.
The fuel 16 exceeds the nesting depth of the schema, so it is never exhausted. -/
def appValidate (v : JVal) : Bool := validate 16 openAPIV3Schema v

example : appValidate (.obj [("spec", .obj
  [("catalog", .str "giantswarm"), ("name", .str "prometheus"),
   ("namespace", .str "monitoring"), ("version", .str "1.0.0"),
   ("kubeConfig", .obj [("inCluster", .bool true)])])]) = true := by decide

example : appValidate (.obj [("spec", .obj
  [("catalog", .str "giantswarm"), ("name", .str "prometheus"),
   ("namespace", .str "monitoring")])]) = false := by decide

/-- If a required key is absent from an object, validation fails. -/
theorem validate_required_missing (fuel : Nat) (s : Sch) (kvs : List (String × JVal))
    (k : String) (hk : k ∈ s.req) (hnk : k ∉ kvs.map Prod.fst) :
    validate (fuel + 1) s (.obj kvs) = false := by
  have hall : s.req.all (fun k => (kvs.map Prod.fst).contains k) = false := by
    rw [List.all_eq_false]
    refine ⟨k, hk, ?_⟩
    simp only [List.contains_iff_exists_mem_beq, beq_iff_eq, Bool.not_eq_true,
      Bool.decide_eq_false, decide_eq_false_iff_not]
    intro hex
    obtain ⟨a, ha, rfl⟩ := hex
    exact hnk ha
  show (typeOk s.ty (JVal.obj kvs) &&
    ((s.req.all fun k => (kvs.map Prod.fst).contains k) &&
      kvs.all fun kv =>
        match List.lookup kv.1 s.props with
        | some sub => validate fuel sub kv.2
        | none => true)) = false
  rw [hall]
  simp

/-- Unfolding equation of `validate` on objects. -/
theorem validate_obj_eq (fuel : Nat) (s : Sch) (kvs : List (String × JVal)) :
    validate (fuel + 1) s (.obj kvs) =
      (typeOk s.ty (.obj kvs) &&
        ((s.req.all fun k => (kvs.map Prod.fst).contains k) &&
          kvs.all fun kv =>
            match List.lookup kv.1 s.props with
            | some sub => validate fuel sub kv.2
            | none => true)) := rfl

/-- If some entry of an object has a schema in `properties` and fails
against it, validation of the object fails. -/
theorem validate_entry_false (fuel : Nat) (s : Sch) (kvs : List (String × JVal))
    (k : String) (v : JVal) (sub : Sch)
    (hm : (k, v) ∈ kvs) (hs : s.props.lookup k = some sub)
    (hv : validate fuel sub v = false) :
    validate (fuel + 1) s (.obj kvs) = false := by
  have hall : kvs.all (fun kv =>
      match (s.props.lookup kv.1) with
      | some sub => validate fuel sub kv.2
      | none => true) = false := by
    rw [List.all_eq_false]
    exact ⟨(k, v), hm, by simp [hs, hv]⟩
  show (typeOk s.ty (JVal.obj kvs) &&
    ((s.req.all fun k => (kvs.map Prod.fst).contains k) &&
      kvs.all fun kv =>
        match List.lookup kv.1 s.props with
        | some sub => validate fuel sub kv.2
        | none => true)) = false
  rw [hall]
  simp

/-- A `{name, namespace}` sub-object missing either required field fails
against `nameNamespaceSch`. -/
theorem nameNamespace_missing (fuel : Nat) (sObj : List (String × JVal))
    (hmiss : "name" ∉ sObj.map Prod.fst ∨ "namespace" ∉ sObj.map Prod.fst) :
    validate (fuel + 1) nameNamespaceSch (.obj sObj) = false := by
  rcases hmiss with h | h
  · exact validate_required_missing fuel _ _ "name" (by decide) h
  · exact validate_required_missing fuel _ _ "namespace" (by decide) h

/-- The five positions in the embedded schema where a `{name, namespace}`
sub-object appears: `config.configMap`, `config.secret`,
`kubeConfig.secret`, `userConfig.configMap`, `userConfig.secret`. -/
def subObjectPaths : List (String × String) :=
  [("config", "configMap"), ("config", "secret"), ("kubeConfig", "secret"),
   ("userConfig", "configMap"), ("userConfig", "secret")]

/-- A descriptor spec containing, at any of the five sub-object positions,
a present sub-object missing `name` or `namespace` fails against `specSch`. -/
theorem specSch_sub_missing (fuel : Nat) (p q : String)
    (hpq : (p, q) ∈ subObjectPaths)
    (spec pObj sObj : List (String × JVal))
    (hp : (p, JVal.obj pObj) ∈ spec) (hq : (q, JVal.obj sObj) ∈ pObj)
    (hmiss : "name" ∉ sObj.map Prod.fst ∨ "namespace" ∉ sObj.map Prod.fst) :
    validate (fuel + 3) specSch (.obj spec) = false := by
  have hnn := nameNamespace_missing fuel sObj hmiss
  simp only [subObjectPaths, List.mem_cons, List.not_mem_nil, or_false,
    Prod.mk.injEq] at hpq
  rcases hpq with ⟨rfl, rfl⟩ | ⟨rfl, rfl⟩ | ⟨rfl, rfl⟩ | ⟨rfl, rfl⟩ | ⟨rfl, rfl⟩
  · exact validate_entry_false _ _ _ _ _ configSch hp rfl
      (validate_entry_false _ _ _ _ _ nameNamespaceSch hq rfl hnn)
  · exact validate_entry_false _ _ _ _ _ configSch hp rfl
      (validate_entry_false _ _ _ _ _ nameNamespaceSch hq rfl hnn)
  · exact validate_entry_false _ _ _ _ _ kubeConfigSch hp rfl
      (validate_entry_false _ _ _ _ _ nameNamespaceSch hq rfl hnn)
  · exact validate_entry_false _ _ _ _ _ configSch hp rfl
      (validate_entry_false _ _ _ _ _ nameNamespaceSch hq rfl hnn)
  · exact validate_entry_false _ _ _ _ _ configSch hp rfl
      (validate_entry_false _ _ _ _ _ nameNamespaceSch hq rfl hnn)

/-- A failing `spec` entry makes the whole custom resource fail. -/
theorem appValidate_spec_false (kvs : List (String × JVal)) (v : JVal)
    (hm : ("spec", v) ∈ kvs) (hv : validate 15 specSch v = false) :
    appValidate (.obj kvs) = false :=
  validate_entry_false 15 openAPIV3Schema kvs "spec" v specSch hm rfl hv

/-- C1: a descriptor whose spec omits any of `catalog`, `name`, `namespace`
or `version`, or whose present `configMap`/`secret` sub-object omits `name`
or `namespace`, fails validation against the embedded schema; a descriptor
supplying all fields of the required-field list with the declared types
(the four strings plus a well-typed `kubeConfig`) validates. -/
theorem appCRD_required_fields_enforced :
    (∀ (kvs spc : List (String × JVal)), ("spec", JVal.obj spc) ∈ kvs →
      ∀ k ∈ ["catalog", "name", "namespace", "version"], k ∉ spc.map Prod.fst →
        appValidate (.obj kvs) = false) ∧
    (∀ (kvs spc pObj sObj : List (String × JVal)) (p q : String),
      (p, q) ∈ subObjectPaths → ("spec", JVal.obj spc) ∈ kvs →
      (p, JVal.obj pObj) ∈ spc → (q, JVal.obj sObj) ∈ pObj →
      ("name" ∉ sObj.map Prod.fst ∨ "namespace" ∉ sObj.map Prod.fst) →
        appValidate (.obj kvs) = false) ∧
    (∀ (cat nm nsp ver ctx kn kns : String) (inC : Bool),
      appValidate (.obj [("spec", .obj
        [("catalog", .str cat), ("name", .str nm), ("namespace", .str nsp),
         ("version", .str ver),
         ("kubeConfig", .obj
           [("inCluster", .bool inC), ("context", .obj [("name", .str ctx)]),
            ("secret", .obj [("name", .str kn), ("namespace", .str kns)])])])])
        = true) := by
  refine ⟨?_, ?_, ?_⟩
  · intro kvs spc hspec k hk hnk
    exact appValidate_spec_false kvs _ hspec
      (validate_required_missing 14 specSch spc k hk hnk)
  · intro kvs spc pObj sObj p q hpq hspec hp hq hmiss
    exact appValidate_spec_false kvs _ hspec
      (specSch_sub_missing 12 p q hpq spc pObj sObj hp hq hmiss)
  · intro cat nm nsp ver ctx kn kns inC
    rfl

/-- Witness for C1: a spec missing `name` is rejected; a spec whose
`config.configMap` misses `namespace` is rejected. -/
theorem appCRD_required_fields_enforced_w :
    appValidate (.obj [("spec", JVal.obj [("catalog", .str "giantswarm")])]) = false ∧
    appValidate (.obj [("spec", JVal.obj
      [("config", .obj [("configMap", .obj [("name", .str "v")])])])]) = false :=
  ⟨appCRD_required_fields_enforced.1 _ _ (List.Mem.head _) "name" (by decide) (by decide),
   appCRD_required_fields_enforced.2.1 _ _ _ _ "config" "configMap" (by decide)
     (List.Mem.head _) (List.Mem.head _) (List.Mem.head _) (Or.inr (by decide))⟩

/-- C3 counterexample: a descriptor whose spec omits `kubeConfig` but has
the four required string fields passes structural validation, refuting the
claim that omitting `kubeConfig` makes validation fail. -/
theorem kubeConfig_omitted_accepted :
    appValidate (.obj [("spec", .obj
      [("catalog", .str "giantswarm"), ("name", .str "prometheus"),
       ("namespace", .str "monitoring"), ("version", .str "1.0.0")])]) = true := by
  decide

/-- C3 (amended): `kubeConfig` is a non-optional field of the data model,
but the required list of the embedded schema is exactly
`[catalog, name, namespace, version]`, which does not include `kubeConfig`;
a descriptor omitting `kubeConfig` while supplying those four as strings
passes structural validation. -/
theorem kubeConfig_not_in_required :
    specSch.req = ["catalog", "name", "namespace", "version"] ∧
    "kubeConfig" ∉ specSch.req ∧
    (∀ (cat nm nsp ver : String),
      appValidate (.obj [("spec", .obj
        [("catalog", .str cat), ("name", .str nm), ("namespace", .str nsp),
         ("version", .str ver)])]) = true) :=
  ⟨rfl, by decide, fun _ _ _ _ => rfl⟩

/-- C6: structural validation enforces neither string non-emptiness nor the
KubeConfig mutual-exclusion rule: a descriptor with all four required spec
fields present as empty strings and a `kubeConfig` combining
`inCluster: true` with both a `context` and a `secret` still validates. -/
theorem schema_no_semantic_checks :
    ∀ (ctx kn kns : String),
      appValidate (.obj [("spec", .obj
        [("catalog", .str ""), ("name", .str ""), ("namespace", .str ""),
         ("version", .str ""),
         ("kubeConfig", .obj
           [("inCluster", .bool true), ("context", .obj [("name", .str ctx)]),
            ("secret", .obj [("name", .str kn), ("namespace", .str kns)])])])])
        = true :=
  fun _ _ _ => rfl

/-- C8: at each of the five `configMap`/`secret` positions of the embedded
schema the sub-object schema is `nameNamespaceSch`, whose required list is
`[name, namespace]`; consequently a present sub-object at any of those
positions missing either field makes validation fail. -/
theorem subobjects_name_namespace_enforced :
    (∀ p q, (p, q) ∈ subObjectPaths →
      (specSch.props.lookup p).bind (fun s => s.props.lookup q)
        = some nameNamespaceSch) ∧
    nameNamespaceSch.req = ["name", "namespace"] ∧
    (∀ (kvs spc pObj sObj : List (String × JVal)) (p q : String),
      (p, q) ∈ subObjectPaths → ("spec", JVal.obj spc) ∈ kvs →
      (p, JVal.obj pObj) ∈ spc → (q, JVal.obj sObj) ∈ pObj →
      ("name" ∉ sObj.map Prod.fst ∨ "namespace" ∉ sObj.map Prod.fst) →
      appValidate (.obj kvs) = false) := by
  refine ⟨?_, rfl, ?_⟩
  · intro p q hpq
    simp only [subObjectPaths, List.mem_cons, List.not_mem_nil, or_false,
      Prod.mk.injEq] at hpq
    rcases hpq with ⟨rfl, rfl⟩ | ⟨rfl, rfl⟩ | ⟨rfl, rfl⟩ | ⟨rfl, rfl⟩ | ⟨rfl, rfl⟩ <;> rfl
  · intro kvs spc pObj sObj p q hpq hspec hp hq hmiss
    exact appValidate_spec_false kvs _ hspec
      (specSch_sub_missing 12 p q hpq spc pObj sObj hp hq hmiss)

/-- Witness for C8: the `kubeConfig.secret` position resolves to
`nameNamespaceSch`, and a `userConfig.secret` sub-object missing
`namespace` is rejected. -/
theorem subobjects_name_namespace_enforced_w :
    (specSch.props.lookup "kubeConfig").bind (fun s => s.props.lookup "secret")
      = some nameNamespaceSch ∧
    appValidate (.obj [("spec", .obj
      [("userConfig", .obj [("secret", .obj [("name", .str "x")])])])]) = false :=
  ⟨subobjects_name_namespace_enforced.1 "kubeConfig" "secret" (by decide),
   subobjects_name_namespace_enforced.2.2 _ _ _ _ "userConfig" "secret" (by decide)
     (List.Mem.head _) (List.Mem.head _) (List.Mem.head _) (Or.inr (by decide))⟩

/-- C9: the top-level schema does not mark `spec` itself as required: a
custom resource omitting the `spec` key entirely passes structural
validation, whatever its other keys hold. -/
theorem spec_itself_not_required (kvs : List (String × JVal))
    (h : "spec" ∉ kvs.map Prod.fst) :
    appValidate (.obj kvs) = true := by
  show validate (15 + 1) openAPIV3Schema (.obj kvs) = true
  rw [validate_obj_eq]
  have hall : (kvs.all fun kv =>
      match List.lookup kv.1 openAPIV3Schema.props with
      | some sub => validate 15 sub kv.2
      | none => true) = true := by
    rw [List.all_eq_true]
    intro kv hkv
    have hne : kv.1 ≠ "spec" := by
      intro he
      exact h (he ▸ List.mem_map.mpr ⟨kv, hkv, rfl⟩)
    have hb : (kv.1 == "spec") = false := beq_eq_false_iff_ne.mpr hne
    have hl : List.lookup kv.1 openAPIV3Schema.props = none := by
      show List.lookup kv.1 [("spec", specSch)] = none
      simp [List.lookup, hb]
    simp [hl]
  rw [hall]
  rfl

/-- Witness for C9: a resource consisting only of `metadata` validates. -/
theorem spec_itself_not_required_w :
    appValidate (.obj [("metadata", .obj [("name", .str "prometheus")])]) = true :=
  spec_itself_not_required _ (by decide)

/-- The embedded CRD definition (app_types.go lines 13–99), line by line;
the Go constant `appCRDYAML` is the newline-joined form with a leading and
a trailing newline, reproduced by the empty first and last entries. -/
def appCRDYAMLLines : List String := [
  "",
  "apiVersion: apiextensions.k8s.io/v1beta1",
  "kind: CustomResourceDefinition",
  "metadata:",
  "  name: apps.application.giantswarm.io",
  "spec:",
  "  group: application.giantswarm.io",
  "  scope: Namespaced",
  "  version: v1alpha1",
  "  names:",
  "    kind: App",
  "    plural: apps",
  "    singular: app",
  "  subresources:",
  "    status: \x7b\x7d",
  "  validation:",
  "    openAPIV3Schema:",
  "      properties:",
  "        spec:",
  "          type: object",
  "          properties:",
  "            catalog:",
  "              type: string",
  "            name:",
  "              type: string",
  "            namespace:",
  "              type: string",
  "            version:",
  "              type: string",
  "            config:",
  "              type: object",
  "              properties:",
  "                configMap:",
  "                  type: object",
  "                  properties:",
  "                    name:",
  "                      type: string",
  "                    namespace:",
  "                      type: string",
  "                  required: [\"name\", \"namespace\"]",
  "                secret:",
  "                  type: object",
  "                  properties:",
  "                    name:",
  "                      type: string",
  "                    namespace:",
  "                      type: string",
  "                  required: [\"name\", \"namespace\"]",
  "            kubeConfig:",
  "              type: object",
  "              properties:",
  "                inCluster:",
  "                  type: boolean",
  "                context:",
  "                  type: object",
  "                  properties:",
  "                    name:",
  "                      type: string",
  "                secret:",
  "                  type: object",
  "                  properties:",
  "                    name:",
  "                      type: string",
  "                    namespace:",
  "                      type: string",
  "                  required: [\"name\", \"namespace\"]",
  "            userConfig:",
  "              type: object",
  "              properties:",
  "                configMap:",
  "                  type: object",
  "                  properties:",
  "                    name:",
  "                      type: string",
  "                    namespace:",
  "                      type: string",
  "                  required: [\"name\", \"namespace\"]",
  "                secret:",
  "                  type: object",
  "                  properties:",
  "                    name:",
  "                      type: string",
  "                    namespace:",
  "                      type: string",
  "                  required: [\"name\", \"namespace\"]",
  "          required: [\"catalog\", \"name\", \"namespace\", \"version\"]",
  ""]

/-- The Go constant itself. -/
def appCRDYAML : String := String.intercalate "\n" appCRDYAMLLines

/-- YAML values of the subset used by `appCRDYAML`: plain scalars, flow
sequences of double-quoted strings, and mappings (block or empty-flow). -/
inductive Yaml where
  | scalar : String → Yaml
  | seq : List String → Yaml
  | map : List (String × Yaml) → Yaml
  deriving Repr

/-- Items of a flow sequence of double-quoted strings, after the opening
bracket: `"a", "b"]`. -/
def parseQItems (fuel : Nat) (cs : List Char) : Option (List String) :=
  match fuel with
  | 0 => none
  | fuel + 1 =>
    match cs.dropWhile (· = ' ') with
    | '"' :: cs1 =>
      let item := cs1.takeWhile (· ≠ '"')
      let cs2 := (cs1.drop (item.length + 1)).dropWhile (· = ' ')
      match cs2 with
      | ',' :: cs3 =>
        match parseQItems fuel cs3 with
        | some items => some (String.mk item :: items)
        | none => none
      | [']'] => some [String.mk item]
      | _ => none
    | _ => none

/-- A flow value on the right of `key: `, either the empty flow mapping,
a flow sequence, or a plain scalar. -/
def parseFlowVal (v : List Char) : Option Yaml :=
  match v with
  | ['\x7b', '\x7d'] => some (Yaml.map [])
  | '[' :: rest =>
    match parseQItems (rest.length + 1) rest with
    | some items => some (Yaml.seq items)
    | none => none
  | _ => some (Yaml.scalar (String.mk v))

/-- Block-mapping entries at exactly indent `n`; stops (returning the rest)
at the first line with smaller indent, fails on a larger one. A `key:`
line with no value opens a nested mapping at the indent of the next line. -/
def parseMap (fuel : Nat) (n : Nat) (ls : List (Nat × List Char)) :
    Option (List (String × Yaml) × List (Nat × List Char)) :=
  match fuel with
  | 0 => none
  | fuel + 1 =>
    match ls with
    | [] => some ([], [])
    | (i, c) :: rest =>
      if i < n then some ([], (i, c) :: rest)
      else if n < i then none
      else
        let kcs := c.takeWhile (· ≠ ':')
        let k := String.mk kcs
        let v := (c.drop (kcs.length + 1)).dropWhile (· = ' ')
        if v = [] then
          match rest with
          | [] => none
          | (i2, _) :: _ =>
            if n < i2 then
              match parseMap fuel i2 rest with
              | some (child, rest2) =>
                match parseMap fuel n rest2 with
                | some (siblings, rest3) => some ((k, Yaml.map child) :: siblings, rest3)
                | none => none
              | none => none
            else none
        else
          match parseFlowVal v with
          | some y =>
            match parseMap fuel n rest with
            | some (siblings, rest2) => some ((k, y) :: siblings, rest2)
            | none => none
          | none => none

/-- Lines of a character stream, split on newline. -/
def splitLines : List Char → List (List Char)
  | [] => [[]]
  | c :: rest =>
    if c = '\n' then [] :: splitLines rest
    else
      match splitLines rest with
      | [] => [[c]]
      | l :: ls => (c :: l) :: ls

/-- Whole-document parse: split into lines, strip blank ones, split each
line into indentation and content, and read one top-level block mapping. -/
def parseYamlDoc (cs : List Char) : Option Yaml :=
  let lns := ((splitLines cs).filter fun l => (l.dropWhile (· = ' ')) ≠ []).map
    fun l => ((l.takeWhile (· = ' ')).length, l.dropWhile (· = ' '))
  match parseMap ((lns.length + 1) * 4) 0 lns with
  | some (m, []) => some (Yaml.map m)
  | _ => none

/-- The `spec.names` block of the CRD. -/
structure CRDNames where
  kind : String
  plural : String
  singular : String
  deriving Repr, DecidableEq

/-- The fields of `apiextensionsv1beta1.CustomResourceDefinition` that the
embedded YAML sets when unmarshalled in `init`. -/
structure CustomResourceDefinition where
  apiVersion : String
  kind : String
  metadataName : String
  group : String
  scope : String
  version : String
  names : CRDNames
  subresourcesStatus : Bool
  schema : Sch
  deriving Repr

/-- Sub-schema extraction from a parsed YAML mapping, mirroring how the
`openAPIV3Schema` block unmarshals into `JSONSchemaProps` (`type`,
`properties`, `required`; absent keys become zero values). -/
def yamlToSch : Nat → Yaml → Option Sch
  | 0, _ => none
  | fuel + 1, y =>
    match y with
    | Yaml.map kvs =>
      (match kvs.lookup "type" with
       | none => some none
       | some (Yaml.scalar t) => some (some t)
       | some _ => none).bind fun ty =>
      (match kvs.lookup "required" with
       | none => some []
       | some (Yaml.seq items) => some items
       | some _ => none).bind fun req =>
      (match kvs.lookup "properties" with
       | none => some []
       | some (Yaml.map ps) =>
         ps.mapM fun (kv : String × Yaml) =>
           (yamlToSch fuel kv.2).map fun s => (kv.1, s)
       | some _ => none).bind fun props =>
      some (Sch.mk ty props req)
    | _ => none

/-- Scalar field of a parsed YAML mapping. -/
def getScalar (kvs : List (String × Yaml)) (k : String) : Option String :=
  match kvs.lookup k with
  | some (Yaml.scalar s) => some s
  | _ => none

/-- Extraction of the CRD fields from the parsed document, mirroring the
unmarshal into `CustomResourceDefinition` in `init`. -/
def yamlToCRD (y : Yaml) : Option CustomResourceDefinition :=
  match y with
  | Yaml.map kvs =>
    (getScalar kvs "apiVersion").bind fun apiVersion =>
    (getScalar kvs "kind").bind fun kind =>
    (match kvs.lookup "metadata" with
     | some (Yaml.map m) => getScalar m "name"
     | _ => none).bind fun metadataName =>
    (match kvs.lookup "spec" with
     | some (Yaml.map sp) => some sp
     | _ => none).bind fun sp =>
    (getScalar sp "group").bind fun group =>
    (getScalar sp "scope").bind fun scope =>
    (getScalar sp "version").bind fun version =>
    (match sp.lookup "names" with
     | some (Yaml.map nm) =>
       (getScalar nm "kind").bind fun nk =>
       (getScalar nm "plural").bind fun np =>
       (getScalar nm "singular").bind fun ns => some (CRDNames.mk nk np ns)
     | _ => none).bind fun names =>
    (match sp.lookup "subresources" with
     | some (Yaml.map sr) => some (sr.lookup "status").isSome
     | _ => some false).bind fun subres =>
    (match sp.lookup "validation" with
     | some (Yaml.map va) =>
       match va.lookup "openAPIV3Schema" with
       | some sy => yamlToSch 16 sy
       | none => none
     | _ => none).bind fun schema =>
    some (CustomResourceDefinition.mk apiVersion kind metadataName group scope
      version names subres schema)
  | _ => none

/-- The package-level `appCRD` variable as `init` leaves it: the parse of
the embedded constant, `none` standing for the branch where `init` panics. -/
def appCRD : Option CustomResourceDefinition :=
  (parseYamlDoc appCRDYAML.data).bind yamlToCRD

/-- Outcome of process initialization: either the process dies in `init`
(`yaml.Unmarshal` returned an error and `init` panicked) or it starts with
the parsed template. -/
inductive InitResult where
  | panicked : InitResult
  | ok : CustomResourceDefinition → InitResult
  deriving Repr

/-- Model of `init` (app_types.go lines 103–108). -/
def initApp : InitResult :=
  match appCRD with
  | none => InitResult.panicked
  | some crd => InitResult.ok crd

/-- The value the embedded constant denotes, transcribed by hand. -/
def appCRDExpected : CustomResourceDefinition :=
  { apiVersion := "apiextensions.k8s.io/v1beta1"
    kind := "CustomResourceDefinition"
    metadataName := "apps.application.giantswarm.io"
    group := "application.giantswarm.io"
    scope := "Namespaced"
    version := "v1alpha1"
    names := CRDNames.mk "App" "apps" "app"
    subresourcesStatus := true
    schema := openAPIV3Schema }

set_option maxRecDepth 100000

/-- The embedded constant parses, and to exactly the transcribed template:
the validation block of the YAML denotes `openAPIV3Schema`. -/
theorem appCRD_eq_expected : appCRD = some appCRDExpected := rfl

/-- C5: the one-time parse at process initialization panics iff the
embedded schema constant fails to parse; the embedded constant is fixed
and well-formed, so the panic branch is unreachable and initialization
always produces the parsed template. -/
theorem init_parses_embedded_schema :
    (initApp = InitResult.panicked ↔ appCRD = none) ∧
    appCRD = some appCRDExpected ∧
    initApp = InitResult.ok appCRDExpected := by
  have h1 : appCRD = some appCRDExpected := appCRD_eq_expected
  have h2 : initApp = InitResult.ok appCRDExpected := by
    unfold initApp
    rw [h1]
  refine ⟨?_, h1, h2⟩
  rw [h1, h2]
  simp

instance : Inhabited Sch := ⟨Sch.mk none [] []⟩

instance : Inhabited CRDNames := ⟨CRDNames.mk "" "" ""⟩

instance : Inhabited CustomResourceDefinition :=
  ⟨CustomResourceDefinition.mk "" "" "" "" "" "" default false default⟩

/-- Deep copy of a CRD value, mirroring the generated `DeepCopy`:
field-by-field reconstruction that shares no mutable state with the
original. -/
def CustomResourceDefinition.deepCopy (c : CustomResourceDefinition) :
    CustomResourceDefinition :=
  CustomResourceDefinition.mk c.apiVersion c.kind c.metadataName c.group
    c.scope c.version (CRDNames.mk c.names.kind c.names.plural c.names.singular)
    c.subresourcesStatus c.schema

/-- A deep copy is structurally equal to its source. -/
theorem deepCopy_eq (c : CustomResourceDefinition) : c.deepCopy = c := rfl

/-- Pointer-level model of the package globals: a heap of allocated CRD
values, with the parsed template living in the cell `templateH`. A handle
is a heap index; callers of `NewAppCRD` only ever hold handles. -/
structure RegistryState where
  heap : List CustomResourceDefinition
  templateH : Nat

/-- Model of `NewAppCRD` (`return appCRD.DeepCopy()`): allocate a fresh
cell holding a deep copy of the template and return its handle. (A 
shallow implementation would instead return `templateH` itself.) -/
def NewAppCRD (σ : RegistryState) : RegistryState × Nat :=
  (RegistryState.mk (σ.heap ++ [(σ.heap[σ.templateH]?.getD default).deepCopy])
    σ.templateH, σ.heap.length)

/-- A caller mutating the value behind its handle, in place. -/
def mutateAt (σ : RegistryState) (h : Nat)
    (f : CustomResourceDefinition → CustomResourceDefinition) : RegistryState :=
  RegistryState.mk
    (match σ.heap[h]? with
     | some c => σ.heap.set h (f c)
     | none => σ.heap)
    σ.templateH

/-- C2: two successive `NewAppCRD` calls return distinct (never-aliasing)
handles whose cells hold structurally equal copies of the template, and
mutating the artifact behind the first handle leaves the second artifact,
the template cell and the template handle unchanged. -/
theorem NewAppCRD_fresh_deep_copy (σ σ1 σ2 : RegistryState) (h1 h2 : Nat)
    (f : CustomResourceDefinition → CustomResourceDefinition)
    (e1 : NewAppCRD σ = (σ1, h1)) (e2 : NewAppCRD σ1 = (σ2, h2))
    (hT : σ.templateH < σ.heap.length) :
    h1 ≠ h2 ∧
    σ2.heap[h1]? = σ2.heap[h2]? ∧
    σ2.heap[h1]? = some (σ.heap[σ.templateH]?.getD default) ∧
    (mutateAt σ2 h1 f).heap[h2]? = σ2.heap[h2]? ∧
    (mutateAt σ2 h1 f).heap[σ.templateH]? = σ.heap[σ.templateH]? ∧
    (mutateAt σ2 h1 f).templateH = σ2.templateH := by
  have hσ1 : σ1 = RegistryState.mk
      (σ.heap ++ [(σ.heap[σ.templateH]?.getD default).deepCopy]) σ.templateH :=
    (congrArg Prod.fst e1).symm
  have hh1 : h1 = σ.heap.length := (congrArg Prod.snd e1).symm
  have hσ2 : σ2 = RegistryState.mk
      (σ1.heap ++ [(σ1.heap[σ1.templateH]?.getD default).deepCopy]) σ1.templateH :=
    (congrArg Prod.fst e2).symm
  have hh2 : h2 = σ1.heap.length := (congrArg Prod.snd e2).symm
  subst hσ1 hh1 hσ2 hh2
  simp only [deepCopy_eq]
  set t := σ.heap[σ.templateH]?.getD default with ht
  have hlt1 : σ.heap.length < (σ.heap ++ [t]).length := by
    simp
  have htpl : (σ.heap ++ [t])[σ.templateH]? = σ.heap[σ.templateH]? :=
    List.getElem?_append_left hT
  have htpl2 : ((σ.heap ++ [t]) ++ [t])[σ.templateH]? = σ.heap[σ.templateH]? := by
    rw [List.getElem?_append_left (lt_trans hT hlt1), htpl]
  have hget1 : ((σ.heap ++ [t]) ++ [t])[σ.heap.length]? = some t := by
    rw [List.getElem?_append_left hlt1]
    exact List.getElem?_concat_length σ.heap t
  have hsame : (σ.heap ++ [t])[σ.templateH]?.getD default = t := by
    rw [htpl, ← ht]
  have hget2 :
      ((σ.heap ++ [t]) ++ [(σ.heap ++ [t])[σ.templateH]?.getD default])[(σ.heap ++ [t]).length]?
        = some t := by
    rw [hsame]
    exact List.getElem?_concat_length (σ.heap ++ [t]) t
  have hne : σ.heap.length ≠ (σ.heap ++ [t]).length := by
    simp
  refine ⟨hne, ?_, ?_, ?_, ?_, ?_⟩
  · rw [hsame] at hget2 ⊢
    rw [hget1, hget2]
  · rw [hsame]
    exact hget1
  · rw [hsame]
    show (mutateAt (RegistryState.mk ((σ.heap ++ [t]) ++ [t]) σ.templateH)
      σ.heap.length f).heap[(σ.heap ++ [t]).length]? = _
    unfold mutateAt
    simp only [hget1]
    rw [List.getElem?_set_ne hne]
  · rw [hsame]
    show (mutateAt (RegistryState.mk ((σ.heap ++ [t]) ++ [t]) σ.templateH)
      σ.heap.length f).heap[σ.templateH]? = _
    unfold mutateAt
    simp only [hget1]
    rw [List.getElem?_set_ne (Nat.ne_of_gt hT)]
    exact htpl2
  · rw [hsame]
    rfl

/-- Witness for C2 at a one-cell heap holding the parsed template. -/
theorem NewAppCRD_fresh_deep_copy_w :
    (1 : Nat) ≠ 2 ∧
    ([appCRDExpected, appCRDExpected, appCRDExpected] :
        List CustomResourceDefinition)[1]?
      = [appCRDExpected, appCRDExpected, appCRDExpected][2]? ∧
    ([appCRDExpected, appCRDExpected, appCRDExpected] :
        List CustomResourceDefinition)[1]?
      = some (([appCRDExpected] : List CustomResourceDefinition)[0]?.getD default) ∧
    (mutateAt (RegistryState.mk [appCRDExpected, appCRDExpected, appCRDExpected] 0) 1
      (fun c => CustomResourceDefinition.mk "mutated" c.kind c.metadataName c.group
        c.scope c.version c.names c.subresourcesStatus c.schema)).heap[2]?
      = ([appCRDExpected, appCRDExpected, appCRDExpected] :
          List CustomResourceDefinition)[2]? ∧
    (mutateAt (RegistryState.mk [appCRDExpected, appCRDExpected, appCRDExpected] 0) 1
      (fun c => CustomResourceDefinition.mk "mutated" c.kind c.metadataName c.group
        c.scope c.version c.names c.subresourcesStatus c.schema)).heap[0]?
      = ([appCRDExpected] : List CustomResourceDefinition)[0]? ∧
    (mutateAt (RegistryState.mk [appCRDExpected, appCRDExpected, appCRDExpected] 0) 1
      (fun c => CustomResourceDefinition.mk "mutated" c.kind c.metadataName c.group
        c.scope c.version c.names c.subresourcesStatus c.schema)).templateH = 0 :=
  NewAppCRD_fresh_deep_copy (RegistryState.mk [appCRDExpected] 0)
    (RegistryState.mk [appCRDExpected, appCRDExpected] 0)
    (RegistryState.mk [appCRDExpected, appCRDExpected, appCRDExpected] 0) 1 2
    (fun c => CustomResourceDefinition.mk "mutated" c.kind c.metadataName c.group
      c.scope c.version c.names c.subresourcesStatus c.schema)
    rfl rfl (by decide)

/-- The constant `kindApp` (app_types.go line 10). -/
def kindApp : String := "App"

/-- Modelled from the spec: `SchemeGroupVersion` is defined in the
package registry file, which is not part of app_types.go; per the spec it
is the externally supplied group/version identity string used to stamp
`apiVersion`, whose group and version are those of the embedded CRD and
whose string form is `group + "/" + version`. -/
def SchemeGroupVersionString : String :=
  "application.giantswarm.io" ++ "/" ++ "v1alpha1"

/-- The two identity fields of `metav1.TypeMeta` that `NewAppTypeMeta`
sets. -/
structure TypeMeta where
  apiVersion : String
  kind : String
  deriving Repr, DecidableEq

/-- Model of `NewAppTypeMeta` (app_types.go lines 130–135); the `Unit`
argument stands for one call. -/
def NewAppTypeMeta (_ : Unit) : TypeMeta :=
  TypeMeta.mk SchemeGroupVersionString kindApp

/-- C7: `NewAppTypeMeta` is a pure constant lookup: every call returns
exactly kind `App` and apiVersion `application.giantswarm.io/v1alpha1`,
which is the group/version of the parsed CRD template, independent of any
input or state. -/
theorem NewAppTypeMeta_constant :
    ∀ u : Unit,
      (NewAppTypeMeta u).kind = "App" ∧
      (NewAppTypeMeta u).apiVersion = "application.giantswarm.io/v1alpha1" ∧
      (NewAppTypeMeta u).apiVersion
        = appCRDExpected.group ++ "/" ++ appCRDExpected.version ∧
      NewAppTypeMeta u = NewAppTypeMeta () :=
  fun _ => ⟨rfl, rfl, rfl, rfl⟩

/-- Modelled from the spec: `DeepCopyTime` is defined outside app_types.go;
per the spec it is a timestamp value type that round-trips exactly through
serialization, modelled here as its serialized text. -/
structure DeepCopyTime where
  time : String
  deriving Repr, DecidableEq

/-- Go struct `AppSpecConfigConfigMap` (app_types.go lines 218–225);
`namespc` stands for the Go field `Namespace`. -/
structure AppSpecConfigConfigMap where
  name : String
  namespc : String
  deriving Repr, DecidableEq

/-- Go struct `AppSpecConfigSecret` (lines 227–234). -/
structure AppSpecConfigSecret where
  name : String
  namespc : String
  deriving Repr, DecidableEq

/-- Go struct `AppSpecConfig` (lines 209–216). -/
structure AppSpecConfig where
  configMap : AppSpecConfigConfigMap
  secret : AppSpecConfigSecret
  deriving Repr, DecidableEq

/-- Go struct `AppSpecKubeConfigContext` (lines 246–250). -/
structure AppSpecKubeConfigContext where
  name : String
  deriving Repr, DecidableEq

/-- Go struct `AppSpecKubeConfigSecret` (lines 252–259). -/
structure AppSpecKubeConfigSecret where
  name : String
  namespc : String
  deriving Repr, DecidableEq

/-- Go struct `AppSpecKubeConfig` (lines 236–244): `context` and `secret`
are pointers with `omitempty`. -/
structure AppSpecKubeConfig where
  inCluster : Bool
  context : Option AppSpecKubeConfigContext
  secret : Option AppSpecKubeConfigSecret
  deriving Repr, DecidableEq

/-- Go struct `AppSpecUserConfigConfigMap` (lines 270–277). -/
structure AppSpecUserConfigConfigMap where
  name : String
  namespc : String
  deriving Repr, DecidableEq

/-- Go struct `AppSpecUserConfigSecret` (lines 279–286). -/
structure AppSpecUserConfigSecret where
  name : String
  namespc : String
  deriving Repr, DecidableEq

/-- Go struct `AppSpecUserConfig` (lines 261–268). -/
structure AppSpecUserConfig where
  configMap : AppSpecUserConfigConfigMap
  secret : AppSpecUserConfigSecret
  deriving Repr, DecidableEq

/-- Go struct `AppSpec` (lines 187–207): `config` and `userConfig` are
pointers with `omitempty`; all other fields always serialize. -/
structure AppSpec where
  catalog : String
  config : Option AppSpecConfig
  kubeConfig : AppSpecKubeConfig
  name : String
  namespc : String
  userConfig : Option AppSpecUserConfig
  version : String
  deriving Repr, DecidableEq

/-- Go struct `AppStatusRelease` (lines 303–312): `lastDeployed` and
`status` have no `omitempty`; `reason` has `omitempty`. -/
structure AppStatusRelease where
  lastDeployed : DeepCopyTime
  reason : String
  status : String
  deriving Repr, DecidableEq

/-- Go struct `AppStatus` (lines 288–301): every field has `omitempty`;
`release` is a pointer. -/
structure AppStatus where
  appVersion : String
  release : Option AppStatusRelease
  version : String
  deriving Repr, DecidableEq

/-- JSON entries of `AppSpecConfigConfigMap` in Go field order (tags
`name`, `namespace`, neither omitempty). -/
def AppSpecConfigConfigMap.jsonEntries (c : AppSpecConfigConfigMap) :
    List (String × JVal) :=
  [("name", .str c.name), ("namespace", .str c.namespc)]

/-- JSON entries of `AppSpecConfigSecret`. -/
def AppSpecConfigSecret.jsonEntries (c : AppSpecConfigSecret) :
    List (String × JVal) :=
  [("name", .str c.name), ("namespace", .str c.namespc)]

/-- JSON entries of `AppSpecConfig` (tags `configMap`, `secret`, neither
omitempty: embedded structs always serialize). -/
def AppSpecConfig.jsonEntries (c : AppSpecConfig) : List (String × JVal) :=
  [("configMap", .obj c.configMap.jsonEntries),
   ("secret", .obj c.secret.jsonEntries)]

/-- JSON entries of `AppSpecKubeConfigContext`. -/
def AppSpecKubeConfigContext.jsonEntries (c : AppSpecKubeConfigContext) :
    List (String × JVal) :=
  [("name", .str c.name)]

/-- JSON entries of `AppSpecKubeConfigSecret`. -/
def AppSpecKubeConfigSecret.jsonEntries (c : AppSpecKubeConfigSecret) :
    List (String × JVal) :=
  [("name", .str c.name), ("namespace", .str c.namespc)]

/-- JSON entries of `AppSpecKubeConfig`: `inCluster` always; the pointer
fields `context` and `secret` are dropped when nil (`omitempty`). -/
def AppSpecKubeConfig.jsonEntries (k : AppSpecKubeConfig) :
    List (String × JVal) :=
  [("inCluster", .bool k.inCluster)] ++
  (match k.context with
   | some c => [("context", JVal.obj c.jsonEntries)]
   | none => []) ++
  (match k.secret with
   | some s => [("secret", JVal.obj s.jsonEntries)]
   | none => [])

/-- JSON entries of `AppSpecUserConfigConfigMap`. -/
def AppSpecUserConfigConfigMap.jsonEntries (c : AppSpecUserConfigConfigMap) :
    List (String × JVal) :=
  [("name", .str c.name), ("namespace", .str c.namespc)]

/-- JSON entries of `AppSpecUserConfigSecret`. -/
def AppSpecUserConfigSecret.jsonEntries (c : AppSpecUserConfigSecret) :
    List (String × JVal) :=
  [("name", .str c.name), ("namespace", .str c.namespc)]

/-- JSON entries of `AppSpecUserConfig`. -/
def AppSpecUserConfig.jsonEntries (c : AppSpecUserConfig) : List (String × JVal) :=
  [("configMap", .obj c.configMap.jsonEntries),
   ("secret", .obj c.secret.jsonEntries)]

/-- JSON entries of `AppSpec` in Go field order: `catalog`, `config`
(omitempty pointer), `kubeConfig`, `name`, `namespace`, `userConfig`
(omitempty pointer), `version`. -/
def AppSpec.jsonEntries (s : AppSpec) : List (String × JVal) :=
  [("catalog", JVal.str s.catalog)] ++
  (match s.config with
   | some c => [("config", JVal.obj c.jsonEntries)]
   | none => []) ++
  [("kubeConfig", JVal.obj s.kubeConfig.jsonEntries),
   ("name", JVal.str s.name), ("namespace", JVal.str s.namespc)] ++
  (match s.userConfig with
   | some c => [("userConfig", JVal.obj c.jsonEntries)]
   | none => []) ++
  [("version", JVal.str s.version)]

/-- Serialization of `AppSpec` (`json.Marshal`). -/
def AppSpec.toJSON (s : AppSpec) : JVal := .obj s.jsonEntries

/-- JSON entries of `AppStatusRelease` in Go field order: `lastDeployed`
(always), `reason` (omitempty string), `status` (always). -/
def AppStatusRelease.jsonEntries (r : AppStatusRelease) : List (String × JVal) :=
  [("lastDeployed", JVal.str r.lastDeployed.time)] ++
  (if r.reason = "" then [] else [("reason", JVal.str r.reason)]) ++
  [("status", JVal.str r.status)]

/-- JSON entries of `AppStatus`: all three fields `omitempty` (`appVersion`
and `version` dropped when empty strings, `release` dropped when nil). -/
def AppStatus.jsonEntries (st : AppStatus) : List (String × JVal) :=
  (if st.appVersion = "" then [] else [("appVersion", JVal.str st.appVersion)]) ++
  (match st.release with
   | some r => [("release", JVal.obj r.jsonEntries)]
   | none => []) ++
  (if st.version = "" then [] else [("version", JVal.str st.version)])

/-- Serialization of `AppStatus` (`json.Marshal`). -/
def AppStatus.toJSON (st : AppStatus) : JVal := .obj st.jsonEntries

/-- String field decode, as `json.Unmarshal` treats it: missing key or
`null` leaves the zero value, a string assigns, anything else errors. -/
def getStrField (kvs : List (String × JVal)) (k : String) : Option String :=
  match kvs.lookup k with
  | none => some ""
  | some JVal.null => some ""
  | some (JVal.str s) => some s
  | some _ => none

/-- Boolean field decode (zero value `false`). -/
def getBoolField (kvs : List (String × JVal)) (k : String) : Option Bool :=
  match kvs.lookup k with
  | none => some false
  | some JVal.null => some false
  | some (JVal.bool b) => some b
  | some _ => none

/-- Object-valued field decode: `some none` when the key is missing or
`null`, `some (some entries)` for a present object, `none` (error) for any
other value. -/
def getObjField (kvs : List (String × JVal)) (k : String) :
    Option (Option (List (String × JVal))) :=
  match kvs.lookup k with
  | none => some none
  | some JVal.null => some none
  | some (JVal.obj o) => some (some o)
  | some _ => none

/-- Decode of an optional (pointer) sub-struct: missing stays `none`. -/
def parseOpt {α : Type} (p : List (String × JVal) → Option α)
    (o : Option (List (String × JVal))) : Option (Option α) :=
  match o with
  | none => some none
  | some kvs => (p kvs).map some

/-- Decode of `AppSpecConfigConfigMap` from object entries. -/
def AppSpecConfigConfigMap.fromObj (kvs : List (String × JVal)) :
    Option AppSpecConfigConfigMap :=
  (getStrField kvs "name").bind fun n =>
  (getStrField kvs "namespace").map fun ns =>
  AppSpecConfigConfigMap.mk n ns

/-- Decode of `AppSpecConfigSecret`. -/
def AppSpecConfigSecret.fromObj (kvs : List (String × JVal)) :
    Option AppSpecConfigSecret :=
  (getStrField kvs "name").bind fun n =>
  (getStrField kvs "namespace").map fun ns =>
  AppSpecConfigSecret.mk n ns

/-- Decode of `AppSpecConfig`: the embedded structs default to their zero
values when their keys are missing. -/
def AppSpecConfig.fromObj (kvs : List (String × JVal)) : Option AppSpecConfig :=
  (getObjField kvs "configMap").bind fun cmo =>
  (match cmo with
   | none => some (AppSpecConfigConfigMap.mk "" "")
   | some o => AppSpecConfigConfigMap.fromObj o).bind fun cm =>
  (getObjField kvs "secret").bind fun so =>
  (match so with
   | none => some (AppSpecConfigSecret.mk "" "")
   | some o => AppSpecConfigSecret.fromObj o).map fun sec =>
  AppSpecConfig.mk cm sec

/-- Decode of `AppSpecKubeConfigContext`. -/
def AppSpecKubeConfigContext.fromObj (kvs : List (String × JVal)) :
    Option AppSpecKubeConfigContext :=
  (getStrField kvs "name").map AppSpecKubeConfigContext.mk

/-- Decode of `AppSpecKubeConfigSecret`. -/
def AppSpecKubeConfigSecret.fromObj (kvs : List (String × JVal)) :
    Option AppSpecKubeConfigSecret :=
  (getStrField kvs "name").bind fun n =>
  (getStrField kvs "namespace").map fun ns =>
  AppSpecKubeConfigSecret.mk n ns

/-- Decode of `AppSpecKubeConfig`: pointer fields stay `none` when their
keys are missing. -/
def AppSpecKubeConfig.fromObj (kvs : List (String × JVal)) :
    Option AppSpecKubeConfig :=
  (getBoolField kvs "inCluster").bind fun inC =>
  (getObjField kvs "context").bind fun cxo =>
  (parseOpt AppSpecKubeConfigContext.fromObj cxo).bind fun cx =>
  (getObjField kvs "secret").bind fun so =>
  (parseOpt AppSpecKubeConfigSecret.fromObj so).map fun sec =>
  AppSpecKubeConfig.mk inC cx sec

/-- Decode of `AppSpecUserConfigConfigMap`. -/
def AppSpecUserConfigConfigMap.fromObj (kvs : List (String × JVal)) :
    Option AppSpecUserConfigConfigMap :=
  (getStrField kvs "name").bind fun n =>
  (getStrField kvs "namespace").map fun ns =>
  AppSpecUserConfigConfigMap.mk n ns

/-- Decode of `AppSpecUserConfigSecret`. -/
def AppSpecUserConfigSecret.fromObj (kvs : List (String × JVal)) :
    Option AppSpecUserConfigSecret :=
  (getStrField kvs "name").bind fun n =>
  (getStrField kvs "namespace").map fun ns =>
  AppSpecUserConfigSecret.mk n ns

/-- Decode of `AppSpecUserConfig`. -/
def AppSpecUserConfig.fromObj (kvs : List (String × JVal)) :
    Option AppSpecUserConfig :=
  (getObjField kvs "configMap").bind fun cmo =>
  (match cmo with
   | none => some (AppSpecUserConfigConfigMap.mk "" "")
   | some o => AppSpecUserConfigConfigMap.fromObj o).bind fun cm =>
  (getObjField kvs "secret").bind fun so =>
  (match so with
   | none => some (AppSpecUserConfigSecret.mk "" "")
   | some o => AppSpecUserConfigSecret.fromObj o).map fun sec =>
  AppSpecUserConfig.mk cm sec

/-- Decode of `AppSpec` from object entries. -/
def AppSpec.fromObj (kvs : List (String × JVal)) : Option AppSpec :=
  (getStrField kvs "catalog").bind fun catalog =>
  (getObjField kvs "config").bind fun cfgo =>
  (parseOpt AppSpecConfig.fromObj cfgo).bind fun config =>
  (getObjField kvs "kubeConfig").bind fun kco =>
  (match kco with
   | none => some (AppSpecKubeConfig.mk false none none)
   | some o => AppSpecKubeConfig.fromObj o).bind fun kubeConfig =>
  (getStrField kvs "name").bind fun nm =>
  (getStrField kvs "namespace").bind fun nsp =>
  (getObjField kvs "userConfig").bind fun uco =>
  (parseOpt AppSpecUserConfig.fromObj uco).bind fun userConfig =>
  (getStrField kvs "version").map fun version =>
  AppSpec.mk catalog config kubeConfig nm nsp userConfig version

/-- Parse of `AppSpec` (`json.Unmarshal`). -/
def AppSpec.fromJSON (v : JVal) : Option AppSpec :=
  match v with
  | .obj kvs => AppSpec.fromObj kvs
  | _ => none

/-- Decode of `AppStatusRelease` from object entries. -/
def AppStatusRelease.fromObj (kvs : List (String × JVal)) :
    Option AppStatusRelease :=
  (getStrField kvs "lastDeployed").bind fun ld =>
  (getStrField kvs "reason").bind fun reason =>
  (getStrField kvs "status").map fun status =>
  AppStatusRelease.mk (DeepCopyTime.mk ld) reason status

/-- Decode of `AppStatus` from object entries. -/
def AppStatus.fromObj (kvs : List (String × JVal)) : Option AppStatus :=
  (getStrField kvs "appVersion").bind fun av =>
  (getObjField kvs "release").bind fun ro =>
  (parseOpt AppStatusRelease.fromObj ro).bind fun release =>
  (getStrField kvs "version").map fun version =>
  AppStatus.mk av release version

/-- Parse of `AppStatus` (`json.Unmarshal`). -/
def AppStatus.fromJSON (v : JVal) : Option AppStatus :=
  match v with
  | .obj kvs => AppStatus.fromObj kvs
  | _ => none

/-- Round trip of `AppSpec` through its JSON form. -/
theorem appSpec_roundTrip (s : AppSpec) :
    AppSpec.fromJSON s.toJSON = some s := by
  obtain ⟨cat, config, kc, nm, nsp, uc, ver⟩ := s
  obtain ⟨inC, cx, sec⟩ := kc
  rcases config with _ | c <;> rcases uc with _ | u <;>
    rcases cx with _ | x <;> rcases sec with _ | e <;> rfl

/-- Round trip of `AppStatus` through its JSON form. -/
theorem appStatus_roundTrip (st : AppStatus) :
    AppStatus.fromJSON st.toJSON = some st := by
  obtain ⟨av, rel, ver⟩ := st
  rcases rel with _ | r
  · by_cases hav : av = "" <;> by_cases hver : ver = "" <;>
      simp [AppStatus.toJSON, AppStatus.jsonEntries, AppStatus.fromJSON,
        AppStatus.fromObj, getStrField, getObjField, parseOpt, List.lookup,
        hav, hver]
  · obtain ⟨⟨ld⟩, reason, status⟩ := r
    by_cases hav : av = "" <;> by_cases hver : ver = "" <;>
      by_cases hr : reason = "" <;>
      simp [AppStatus.toJSON, AppStatus.jsonEntries, AppStatus.fromJSON,
        AppStatus.fromObj, AppStatusRelease.jsonEntries, AppStatusRelease.fromObj,
        getStrField, getObjField, parseOpt, List.lookup, hav, hver, hr]

/-- C4: serializing a spec/status and parsing it back yields the original
in all fields, and each absent optional field remains absent: the
`config`, `userConfig`, `kubeConfig.context`, `kubeConfig.secret` and
`status.release` keys are emitted iff the corresponding optional field is
present. -/
theorem serialization_round_trip (s : AppSpec) (st : AppStatus) :
    AppSpec.fromJSON s.toJSON = some s ∧
    AppStatus.fromJSON st.toJSON = some st ∧
    (("config" ∈ s.toJSON.keys) ↔ s.config.isSome) ∧
    (("userConfig" ∈ s.toJSON.keys) ↔ s.userConfig.isSome) ∧
    (("context" ∈ (JVal.obj s.kubeConfig.jsonEntries).keys)
      ↔ s.kubeConfig.context.isSome) ∧
    (("secret" ∈ (JVal.obj s.kubeConfig.jsonEntries).keys)
      ↔ s.kubeConfig.secret.isSome) ∧
    (("release" ∈ st.toJSON.keys) ↔ st.release.isSome) := by
  refine ⟨appSpec_roundTrip s, appStatus_roundTrip st, ?_, ?_, ?_, ?_, ?_⟩
  · rcases s with ⟨cat, config, kc, nm, nsp, uc, ver⟩
    rcases config with _ | c <;> rcases uc with _ | u <;>
      simp [AppSpec.toJSON, AppSpec.jsonEntries, JVal.keys]
  · rcases s with ⟨cat, config, kc, nm, nsp, uc, ver⟩
    rcases config with _ | c <;> rcases uc with _ | u <;>
      simp [AppSpec.toJSON, AppSpec.jsonEntries, JVal.keys]
  · rcases s with ⟨cat, config, ⟨inC, cx, sec⟩, nm, nsp, uc, ver⟩
    rcases cx with _ | x <;> rcases sec with _ | e <;>
      simp [AppSpecKubeConfig.jsonEntries, JVal.keys]
  · rcases s with ⟨cat, config, ⟨inC, cx, sec⟩, nm, nsp, uc, ver⟩
    rcases cx with _ | x <;> rcases sec with _ | e <;>
      simp [AppSpecKubeConfig.jsonEntries, JVal.keys]
  · rcases st with ⟨av, rel, ver⟩
    rcases rel with _ | r <;>
      by_cases hav : av = "" <;> by_cases hver : ver = "" <;>
      simp [AppStatus.toJSON, AppStatus.jsonEntries, JVal.keys, hav, hver]

/-- C10: a serialized release always emits the `lastDeployed` and `status`
keys (even when the status string is empty), emits `reason` iff it is
non-empty, and a status whose release is present serializes it under the
`release` key. -/
theorem release_serialization_keys (st : AppStatus) (r : AppStatusRelease) :
    ("lastDeployed" ∈ (JVal.obj r.jsonEntries).keys) ∧
    ("status" ∈ (JVal.obj r.jsonEntries).keys) ∧
    (("reason" ∈ (JVal.obj r.jsonEntries).keys) ↔ r.reason ≠ "") ∧
    (st.release = some r →
      st.toJSON.lookup "release" = some (JVal.obj r.jsonEntries)) := by
  refine ⟨?_, ?_, ?_, ?_⟩
  · rcases r with ⟨⟨ld⟩, reason, status⟩
    by_cases hr : reason = "" <;>
      simp [AppStatusRelease.jsonEntries, JVal.keys, hr]
  · rcases r with ⟨⟨ld⟩, reason, status⟩
    by_cases hr : reason = "" <;>
      simp [AppStatusRelease.jsonEntries, JVal.keys, hr]
  · rcases r with ⟨⟨ld⟩, reason, status⟩
    by_cases hr : reason = "" <;>
      simp [AppStatusRelease.jsonEntries, JVal.keys, hr]
  · intro h
    rcases st with ⟨av, rel, ver⟩
    cases h
    by_cases hav : av = "" <;> by_cases hver : ver = "" <;>
      simp [AppStatus.toJSON, AppStatus.jsonEntries, JVal.lookup, List.lookup,
        hav, hver]

/-- Witness for C10 at a concrete status and release. -/
theorem release_serialization_keys_w :
    ("lastDeployed" ∈ (JVal.obj
      (AppStatusRelease.mk (DeepCopyTime.mk "2018-11-30T21:06:20Z") ""
        "DEPLOYED").jsonEntries).keys) ∧
    ("status" ∈ (JVal.obj
      (AppStatusRelease.mk (DeepCopyTime.mk "2018-11-30T21:06:20Z") ""
        "DEPLOYED").jsonEntries).keys) ∧
    (("reason" ∈ (JVal.obj
      (AppStatusRelease.mk (DeepCopyTime.mk "2018-11-30T21:06:20Z") ""
        "DEPLOYED").jsonEntries).keys) ↔
      (AppStatusRelease.mk (DeepCopyTime.mk "2018-11-30T21:06:20Z") ""
        "DEPLOYED").reason ≠ "") ∧
    ((AppStatus.mk "2.4.3"
      (some (AppStatusRelease.mk (DeepCopyTime.mk "2018-11-30T21:06:20Z") ""
        "DEPLOYED")) "1.1.0").toJSON.lookup "release"
      = some (JVal.obj
        (AppStatusRelease.mk (DeepCopyTime.mk "2018-11-30T21:06:20Z") ""
          "DEPLOYED").jsonEntries)) := by
  have h := release_serialization_keys
    (AppStatus.mk "2.4.3"
      (some (AppStatusRelease.mk (DeepCopyTime.mk "2018-11-30T21:06:20Z") ""
        "DEPLOYED")) "1.1.0")
    (AppStatusRelease.mk (DeepCopyTime.mk "2018-11-30T21:06:20Z") "" "DEPLOYED")
  exact ⟨h.1, h.2.1, h.2.2.1, h.2.2.2 rfl⟩
